import Mathlib

/-!
Verification of `pingora-timeout` (src/pingora-timeout/src/lib.rs): the lazy
timeout future combinator `Timeout<T, F>` and its timer backends.

Shallow embedding conventions:
* Time is modelled as `Nat` (milliseconds).  A wrapped asynchronous operation
  is modelled by its poll behavior: a function `Nat → Poll α` giving the
  outcome of polling it at an absolute instant.
* A delay future (the `BoxFuture<'static, ()>` stored in the `delay` slot) is
  modelled by its firing predicate `Nat → Bool`: whether it has fired when
  polled at an absolute instant.
* `Timeout.poll` is translated statement-by-statement from
  `impl Future for Timeout::poll` (lib.rs lines 128-144); the environment
  (the scheduler) is represented by the list of instants at which the future
  gets polled (`runPolls`).
-/

namespace Pingora

/-- The std task Poll type: `Ready(v)` or `Pending`. -/
inductive Poll (α : Type) where
  | Ready : α → Poll α
  | Pending : Poll α
deriving DecidableEq, Repr

/-- Durations in milliseconds (`tokio::time::Duration`, non-negative). -/
abbrev Duration := Nat

/-- The behavior of a wrapped asynchronous operation: for each absolute
instant at which it is polled, whether it completes (and with what value). -/
abbrev FutureBeh (α : Type) := Nat → Poll α

/-- The behavior of a delay future: whether it has fired when polled at an
absolute instant. -/
abbrev DelayBeh := Nat → Bool

/-- The error type returned when the timeout is reached
(`pub struct Elapsed;`); it has no fields (carries no payload). -/
structure Elapsed where
deriving DecidableEq, Repr

/-- The `ToTimeout` trait: `create` builds the callback from a duration and
`timeout` produces a fresh delay future.  In Rust `timeout(&self)` captures
the current instant implicitly (e.g. `tokio_sleep` computes its deadline at
creation time); here that instant is passed explicitly as the first `Nat`
argument. -/
class ToTimeout (F : Type) where
  timeout : F → Nat → DelayBeh
  create : Duration → F

/-- The timeout generated by `tokio_timeout()` (`pub struct
TokioTimeout(Duration);`): the direct backend, wrapping the base sleep
primitive. -/
structure TokioTimeout where
  d : Duration
deriving DecidableEq, Repr

/-- The impl of `ToTimeout` for `TokioTimeout`: `timeout` boxes
`tokio_sleep(self.0)`, a sleep created at instant `t0` that has fired at any
instant `t ≥ t0 + d`; `create` stores the duration. -/
instance tokioToTimeout : ToTimeout TokioTimeout where
  timeout f t0 := fun t => decide (f.d + t0 ≤ t)
  create d := ⟨d⟩

/-- Fixed tick resolution of the coalesced backend: 10 ms. -/
def tickResolution : Nat := 10

/-- Modelled from the spec: the quantized deadline (`timer` module, not in
src/) — "Deadline rounded up to the next multiple of a fixed tick resolution
(default 10ms)". -/
def quantize (x : Nat) : Nat :=
  ((x + (tickResolution - 1)) / tickResolution) * tickResolution

/-- Modelled from the spec: the coalesced/shared backend (`fast_timeout`
module, not in src/) — it stores the duration, and its delay fires once the
quantized deadline has passed. -/
structure FastTimeout where
  d : Duration
deriving DecidableEq, Repr

/-- Modelled from the spec: the coalesced backend "computes the Quantized
Deadline, then ... returns a handle that resolves when that entry fires";
the entry's physical timer is armed for the quantized deadline. -/
instance fastToTimeout : ToTimeout FastTimeout where
  timeout f t0 := fun t => decide (quantize (f.d + t0) ≤ t)
  create d := ⟨d⟩

/-- The timeout future `pub struct Timeout<T, F>`: the wrapped operation
`value`, the lazily created `delay: Option<BoxFuture<()>>`, and the
`callback` used to create the timer. -/
structure Timeout (α F : Type) where
  value : FutureBeh α
  delay : Option DelayBeh
  callback : F

/-- The constructor `Timeout::new_with_delay`: stores the operation, no
delay yet, and `F::create(d)` as the callback. -/
def Timeout.new_with_delay {α F : Type} [ToTimeout F] (value : FutureBeh α)
    (d : Duration) : Timeout α F :=
  { value := value, delay := none, callback := ToTimeout.create d }

/-- The entry point `tokio_timeout(duration, future)`: the timeout with lazy
timer initialization over the direct tokio backend. -/
def tokio_timeout {α : Type} (duration : Duration) (future : FutureBeh α) :
    Timeout α TokioTimeout :=
  Timeout.new_with_delay future duration

/-- Modelled from the spec: the entry point `fast_timeout` (the
`fast_timeout` module, re-exported as `timeout`, is not in src/) — the same
combinator instantiated with the coalesced backend. -/
def fast_timeout {α : Type} (duration : Duration) (future : FutureBeh α) :
    Timeout α FastTimeout :=
  Timeout.new_with_delay future duration

/-- The impl of `Future` for `Timeout`, translated statement-by-statement
(lib.rs lines 128-144), polled at absolute instant `t`:
first poll the wrapped future and return `Ok(v)` if ready; otherwise
`get_or_insert_with` the delay from `callback.timeout()` and poll it,
mapping `Pending ↦ Pending` and `Ready(()) ↦ Ready(Err(Elapsed))`. -/
def Timeout.poll {α F : Type} [ToTimeout F] (me : Timeout α F) (t : Nat) :
    Timeout α F × Poll (Except Elapsed α) :=
  match me.value t with
  | Poll.Ready v => (me, Poll.Ready (Except.ok v))
  | Poll.Pending =>
    let delay := me.delay.getD (ToTimeout.timeout me.callback t)
    let me' : Timeout α F := { me with delay := some delay }
    match delay t with
    | false => (me', Poll.Pending)
    | true => (me', Poll.Ready (Except.error ⟨⟩))

/-- Driving a `Timeout` future: the scheduler polls it at each instant of the
list in turn until it returns `Ready`; the result is the final state together
with the resolved outcome, if any. -/
def runPolls {α F : Type} [ToTimeout F] (me : Timeout α F) :
    List Nat → Timeout α F × Option (Except Elapsed α)
  | [] => (me, none)
  | t :: ts =>
    match Timeout.poll me t with
    | (me', Poll.Ready r) => (me', some r)
    | (me', Poll.Pending) => runPolls me' ts

/-- Modelled from the spec: the Shared Timer Wheel (`timer` module, not in
src/) — "a concurrent mapping from Quantized Deadline to TimerEntry".
Entries are identified by the id they were allotted at creation; `nextId`
counts how many physical timers have ever been armed. -/
structure TimerWheel where
  entries : List (Nat × Nat)
  nextId : Nat
deriving DecidableEq, Repr

/-- Looking up the entry id registered for a quantized deadline. -/
def lookupEntry : List (Nat × Nat) → Nat → Option Nat
  | [], _ => none
  | p :: l, qd => if p.1 = qd then some p.2 else lookupEntry l qd

/-- The number of timer entries armed for a given quantized deadline. -/
def countEntries : List (Nat × Nat) → Nat → Nat
  | [], _ => 0
  | p :: l, qd => (if p.1 = qd then 1 else 0) + countEntries l qd

/-- Modelled from the spec: `get_or_create(quantized_deadline)` "returns the
entry for that deadline, creating it iff absent; concurrent callers racing on
the same deadline must converge on one entry — never two".  Concurrency is
linearized: the spec requires creation to be atomic, so a race is modelled
as the serialization orders of the competing calls. -/
def TimerWheel.getOrCreate (w : TimerWheel) (qd : Nat) : TimerWheel × Nat :=
  match lookupEntry w.entries qd with
  | some e => (w, e)
  | none => ({ entries := (qd, w.nextId) :: w.entries, nextId := w.nextId + 1 },
             w.nextId)

/-- Well-formedness of the wheel: at most one physical timer is armed per
distinct quantized deadline. -/
def TimerWheel.WF (w : TimerWheel) : Prop :=
  ∀ qd, countEntries w.entries qd ≤ 1

/-- The empty wheel. -/
def TimerWheel.empty : TimerWheel := { entries := [], nextId := 0 }

/-- A deadline whose lookup fails has no armed timer. -/
theorem lookupEntry_none_count {qd : Nat} : ∀ {l : List (Nat × Nat)},
    lookupEntry l qd = none → countEntries l qd = 0 := by
  intro l h
  induction l with
  | nil => rfl
  | cons p l ih =>
    rw [lookupEntry] at h
    rw [countEntries]
    by_cases hk : p.1 = qd
    · rw [if_pos hk] at h; exact absurd h (by simp)
    · rw [if_neg hk] at h
      rw [if_neg hk]
      simpa using ih h

/-- A deadline whose lookup succeeds has at least one armed timer. -/
theorem lookupEntry_some_count {qd e : Nat} : ∀ {l : List (Nat × Nat)},
    lookupEntry l qd = some e → 1 ≤ countEntries l qd := by
  intro l h
  induction l with
  | nil => simp [lookupEntry] at h
  | cons p l ih =>
    rw [lookupEntry] at h
    rw [countEntries]
    by_cases hk : p.1 = qd
    · rw [if_pos hk]; omega
    · rw [if_neg hk] at h
      rw [if_neg hk]
      simpa using ih h

/-! Theorems settling the claims. -/

/-- C1: on any poll of the `Timeout` future at which the wrapped operation
yields a result `v`, the combinator returns `Ready(Ok(v))` in that same poll
with its state untouched — in particular this holds whatever the `delay`
slot contains, even a delay that has already fired, so operation completion
always wins ties over `Elapsed`. -/
theorem C1_completion_wins {α F : Type} [ToTimeout F] (me : Timeout α F)
    (t : Nat) (v : α) (h : me.value t = Poll.Ready v) :
    Timeout.poll me t = (me, Poll.Ready (Except.ok v)) := by
  unfold Timeout.poll
  rw [h]

/-- The `Timeout` state used to witness C1: the wrapped operation is ready
with value 7 while the stored delay has already fired. -/
def c1state : Timeout Nat TokioTimeout :=
  { value := fun _ => Poll.Ready 7
    delay := some (fun _ => true)
    callback := ⟨5⟩ }

/-- Witness for C1 at a concrete state whose delay has already fired. -/
theorem C1_completion_wins_witness :
    c1state.delay = some (fun _ => true) ∧
    Timeout.poll c1state 3 = (c1state, Poll.Ready (Except.ok 7)) :=
  ⟨rfl, C1_completion_wins c1state 3 7 rfl⟩

/-- C2: if the wrapped operation is ready on the very first poll of a fresh
`Timeout` future, the result is `Ok` of its value and the delay slot is
still empty afterwards (zero timer registrations); and on any poll of a
fresh future at which the operation is NOT ready, the slot is filled with
the delay obtained from the backend callback at that very instant — the
delay is created exactly on the first not-ready poll. -/
theorem C2_ready_first_poll_no_timer {α F : Type} [ToTimeout F]
    (value : FutureBeh α) (d : Duration) (t : Nat) (v : α)
    (h : value t = Poll.Ready v) :
    (Timeout.poll (Timeout.new_with_delay value d : Timeout α F) t).2
        = Poll.Ready (Except.ok v) ∧
    ((Timeout.poll (Timeout.new_with_delay value d : Timeout α F) t).1).delay
        = none ∧
    ∀ u, value u = Poll.Pending →
      ((Timeout.poll (Timeout.new_with_delay value d : Timeout α F) u).1).delay
        = some (ToTimeout.timeout (ToTimeout.create d : F) u) := by
  refine ⟨?_, ?_, ?_⟩
  · simp [Timeout.poll, Timeout.new_with_delay, h]
  · simp [Timeout.poll, Timeout.new_with_delay, h]
  · intro u hu
    cases hf : ToTimeout.timeout (ToTimeout.create d : F) u u <;>
      simp [Timeout.poll, Timeout.new_with_delay, hu, hf]

/-- Witness for C2: an operation ready immediately with value 1 (spec
Scenario B) and, for the third conjunct, one that is never ready. -/
theorem C2_ready_first_poll_no_timer_witness :
    (Timeout.poll (Timeout.new_with_delay (fun _ => Poll.Ready 1) 1000
        : Timeout Nat TokioTimeout) 0).2 = Poll.Ready (Except.ok 1) ∧
    ((Timeout.poll (Timeout.new_with_delay (fun _ => Poll.Ready 1) 1000
        : Timeout Nat TokioTimeout) 0).1).delay = none ∧
    ∀ u, (fun (_ : Nat) => Poll.Ready 1) u = Poll.Pending →
      ((Timeout.poll (Timeout.new_with_delay (fun _ => Poll.Ready 1) 1000
          : Timeout Nat TokioTimeout) u).1).delay
        = some (ToTimeout.timeout (ToTimeout.create 1000 : TokioTimeout) u) :=
  C2_ready_first_poll_no_timer (fun _ => Poll.Ready 1) 1000 0 1 rfl

/-- C3: the delay is memoized — once the slot holds a delay handle `f`,
polling returns a state whose slot still holds the very same `f` (never
recreated or replaced), and by the `Option` type of the slot the future
never holds more than one delay handle at a time. -/
theorem C3_delay_never_recreated {α F : Type} [ToTimeout F]
    (me : Timeout α F) (f : DelayBeh) (h : me.delay = some f) :
    (∀ t, ((Timeout.poll me t).1).delay = some f) ∧
    ∀ ts, ((runPolls me ts).1).delay = some f := by
  have step : ∀ (me' : Timeout α F), me'.delay = some f →
      ∀ t, ((Timeout.poll me' t).1).delay = some f := by
    intro me' h' t
    cases hv : me'.value t with
    | Ready v => simp [Timeout.poll, hv, h']
    | Pending =>
      cases hf : f t <;> simp [Timeout.poll, hv, h', hf]
  refine ⟨step me h, ?_⟩
  intro ts
  induction ts generalizing me with
  | nil => simpa using h
  | cons t ts ih =>
    unfold runPolls
    cases hp : Timeout.poll me t with
    | mk me' r =>
      have hd : me'.delay = some f := by
        have := step me h t
        rw [hp] at this
        exact this
      cases r with
      | Ready v => simpa using hd
      | Pending => simpa using ih me' hd

/-- The `Timeout` state used to witness C3: a pending operation with a delay
handle already stored. -/
def c3state : Timeout Nat TokioTimeout :=
  { value := fun _ => Poll.Pending
    delay := some (fun t => decide (5 ≤ t))
    callback := ⟨5⟩ }

/-- Witness for C3 at a concrete state with an existing delay handle. -/
theorem C3_delay_never_recreated_witness :
    (∀ t, ((Timeout.poll c3state t).1).delay = some (fun t => decide (5 ≤ t))) ∧
    ∀ ts, ((runPolls c3state ts).1).delay = some (fun t => decide (5 ≤ t)) :=
  C3_delay_never_recreated c3state (fun t => decide (5 ≤ t)) rfl

/-- C4: on any poll at which the wrapped operation is not ready, the
combinator's outcome is decided by the (existing or just created) delay:
`Pending` when the delay has not fired, `Ready(Err(Elapsed))` when it has —
and these are the only possible outcomes. -/
theorem C4_pending_outcomes {α F : Type} [ToTimeout F]
    (me : Timeout α F) (t : Nat) (h : me.value t = Poll.Pending) :
    (Timeout.poll me t).2 =
      (if (me.delay.getD (ToTimeout.timeout me.callback t)) t
        then Poll.Ready (Except.error ⟨⟩) else Poll.Pending) ∧
    ((Timeout.poll me t).2 = Poll.Pending ∨
      (Timeout.poll me t).2 = Poll.Ready (Except.error ⟨⟩)) := by
  cases hf : (me.delay.getD (ToTimeout.timeout me.callback t)) t <;>
    simp [Timeout.poll, h, hf]

/-- The `Timeout` state used to witness C4: a never-ready operation with a
zero duration, so the freshly created delay has fired at the first poll. -/
def c4state : Timeout Nat TokioTimeout :=
  { value := fun _ => Poll.Pending
    delay := none
    callback := ⟨0⟩ }

/-- Witness for C4 at a concrete never-ready state. -/
theorem C4_pending_outcomes_witness :
    (Timeout.poll c4state 0).2 =
      (if (c4state.delay.getD (ToTimeout.timeout c4state.callback 0)) 0
        then Poll.Ready (Except.error ⟨⟩) else Poll.Pending) ∧
    ((Timeout.poll c4state 0).2 = Poll.Pending ∨
      (Timeout.poll c4state 0).2 = Poll.Ready (Except.error ⟨⟩)) :=
  C4_pending_outcomes c4state 0 rfl

/-- C5: the outcome of a poll that resolves is exactly one of two cases —
`Ok` carrying the wrapped operation's own output unchanged (the very value
the operation yielded in that poll), or `Err(Elapsed)`; and `Elapsed`
carries no payload (all its values are equal), so it can never be conflated
with an inner result or error, which passes through inside `Ok` untouched. -/
theorem C5_result_shape {α F : Type} [ToTimeout F]
    (me : Timeout α F) (t : Nat) (r : Except Elapsed α)
    (h : (Timeout.poll me t).2 = Poll.Ready r) :
    ((∃ v, me.value t = Poll.Ready v ∧ r = Except.ok v) ∨
      (me.value t = Poll.Pending ∧ r = Except.error ⟨⟩)) ∧
    ∀ e e' : Elapsed, e = e' := by
  refine ⟨?_, fun e e' => rfl⟩
  cases hv : me.value t with
  | Ready v =>
    simp [Timeout.poll, hv] at h
    exact Or.inl ⟨v, rfl, h.symm⟩
  | Pending =>
    cases hf : (me.delay.getD (ToTimeout.timeout me.callback t)) t with
    | false => simp [Timeout.poll, hv, hf] at h
    | true =>
      simp [Timeout.poll, hv, hf] at h
      exact Or.inr ⟨rfl, h.symm⟩

/-- The `Timeout` state used to witness C5: an operation that resolves
immediately with an inner error-like value (here the value 9), which must
pass through unchanged inside `Ok`. -/
def c5state : Timeout Nat TokioTimeout :=
  { value := fun _ => Poll.Ready 9
    delay := none
    callback := ⟨1⟩ }

/-- Witness for C5 at a concrete resolving poll. -/
theorem C5_result_shape_witness :
    ((∃ v, c5state.value 0 = Poll.Ready v ∧
        (Except.ok 9 : Except Elapsed Nat) = Except.ok v) ∨
      (c5state.value 0 = Poll.Pending ∧
        (Except.ok 9 : Except Elapsed Nat) = Except.error ⟨⟩)) ∧
    ∀ e e' : Elapsed, e = e' :=
  C5_result_shape c5state 0 (Except.ok 9) rfl

/-- C6: with a zero-length duration the wrapped operation is still polled
first: if it is ready at the poll instant the combinator returns `Ok` and
never touches the delay slot, even though a zero-duration delay created at
that same instant would already have fired. -/
theorem C6_zero_duration_polls_value_first {α : Type}
    (value : FutureBeh α) (t : Nat) (v : α) (h : value t = Poll.Ready v) :
    Timeout.poll (tokio_timeout 0 value) t =
      (tokio_timeout 0 value, Poll.Ready (Except.ok v)) ∧
    ((Timeout.poll (tokio_timeout 0 value) t).1).delay = none ∧
    ToTimeout.timeout (ToTimeout.create 0 : TokioTimeout) t t = true := by
  refine ⟨?_, ?_, by simp [ToTimeout.timeout, tokioToTimeout]⟩
  · simp [Timeout.poll, tokio_timeout, Timeout.new_with_delay, h]
  · simp [Timeout.poll, tokio_timeout, Timeout.new_with_delay, h]

/-- Witness for C6: a first-poll-ready operation under duration zero. -/
theorem C6_zero_duration_polls_value_first_witness :
    Timeout.poll (tokio_timeout 0 (fun _ => Poll.Ready 2)) 4 =
      (tokio_timeout 0 (fun _ => Poll.Ready 2), Poll.Ready (Except.ok 2)) ∧
    ((Timeout.poll (tokio_timeout 0 (fun (_ : Nat) => Poll.Ready 2)) 4).1).delay
      = none ∧
    ToTimeout.timeout (ToTimeout.create 0 : TokioTimeout) 4 4 = true :=
  C6_zero_duration_polls_value_first (fun _ => Poll.Ready 2) 4 2 rfl

/-- C7: on a well-formed wheel (at most one armed timer per quantized
deadline), two callers racing on the same quantized deadline — modelled as
the serialization of their `get_or_create` calls — converge on one entry:
the second call returns the very same entry id and arms no new timer, the
wheel stays well-formed, and exactly one timer is armed for that deadline. -/
theorem C7_coalesced_single_entry (w : TimerWheel) (qd : Nat) (h : w.WF) :
    TimerWheel.getOrCreate (TimerWheel.getOrCreate w qd).1 qd =
      ((TimerWheel.getOrCreate w qd).1, (TimerWheel.getOrCreate w qd).2) ∧
    (TimerWheel.getOrCreate w qd).1.WF ∧
    countEntries (TimerWheel.getOrCreate w qd).1.entries qd = 1 := by
  unfold TimerWheel.getOrCreate
  cases hl : lookupEntry w.entries qd with
  | some e =>
    simp only [hl]
    refine ⟨trivial, h, ?_⟩
    have h1 := lookupEntry_some_count hl
    have h2 := h qd
    omega
  | none =>
    have hl2 : lookupEntry ((qd, w.nextId) :: w.entries) qd = some w.nextId := by
      rw [lookupEntry, if_pos rfl]
    simp only [hl, hl2]
    have hc := lookupEntry_none_count hl
    refine ⟨trivial, ?_, ?_⟩
    · intro u
      rw [countEntries]
      by_cases hq : qd = u
      · subst hq
        rw [if_pos rfl]
        omega
      · have hne : ¬ ((qd, w.nextId).1 = u) := hq
        rw [if_neg hne]
        have := h u
        omega
    · rw [countEntries, if_pos rfl]
      omega

/-- Witness for C7: two racing `get_or_create` calls for quantized deadline
20 on the empty wheel. -/
theorem C7_coalesced_single_entry_witness :
    TimerWheel.getOrCreate (TimerWheel.getOrCreate TimerWheel.empty 20).1 20 =
      ((TimerWheel.getOrCreate TimerWheel.empty 20).1,
        (TimerWheel.getOrCreate TimerWheel.empty 20).2) ∧
    (TimerWheel.getOrCreate TimerWheel.empty 20).1.WF ∧
    countEntries (TimerWheel.getOrCreate TimerWheel.empty 20).1.entries 20 = 1 :=
  C7_coalesced_single_entry TimerWheel.empty 20
    (fun _ => by rw [TimerWheel.empty, countEntries]; omega)

/-- The never-ready operation wrapped by a coalesced timeout whose delay was
created at instant `t0`, used to state C8. -/
def neverReadyFast (d t0 : Nat) : Timeout Nat FastTimeout :=
  { value := fun _ => Poll.Pending
    delay := some (ToTimeout.timeout (⟨d⟩ : FastTimeout) t0)
    callback := ⟨d⟩ }

/-- C8: the quantized deadline is the raw deadline `t0 + d` rounded up to
the next multiple of the 10 ms tick resolution — never earlier, at most one
tick later, and a multiple of the tick — and for a never-completing
operation under the coalesced backend, a poll observes `Err(Elapsed)`
exactly from the quantized deadline on, hence within `[d, d + tick]` after
the countdown start `t0`. -/
theorem C8_quantized_deadline_window (d t0 t : Nat) :
    d + t0 ≤ quantize (d + t0) ∧
    quantize (d + t0) ≤ d + t0 + tickResolution ∧
    quantize (d + t0) % tickResolution = 0 ∧
    ((Timeout.poll (neverReadyFast d t0) t).2 = Poll.Ready (Except.error ⟨⟩) ↔
      quantize (d + t0) ≤ t) := by
  refine ⟨?_, ?_, ?_, ?_⟩
  · unfold quantize tickResolution
    omega
  · unfold quantize tickResolution
    omega
  · unfold quantize tickResolution
    omega
  · by_cases hq : quantize (d + t0) ≤ t <;>
      simp [Timeout.poll, neverReadyFast, ToTimeout.timeout, fastToTimeout, hq]

/-- The never-ready operation used to exhibit the divergence of the two
timer backends. -/
def c9value : FutureBeh Nat := fun _ => Poll.Pending

/-- C9 counterexample: with duration 1 and a never-ready operation, polled
at instants 0 and 1, the combinator over the direct backend resolves
`Err(Elapsed)` while over the coalesced backend it is still pending (its
delay fires only at the quantized deadline 10) — the two backends do not
produce the same suspend/resolve outcomes. -/
theorem C9_backend_divergence_counterexample :
    (runPolls (tokio_timeout 1 c9value) [0, 1]).2 = some (Except.error ⟨⟩) ∧
    (runPolls (fast_timeout 1 c9value) [0, 1]).2 = none := by
  constructor <;> rfl

/-- C9 amended: the backends are interchangeable up to quantization — on a
poll where the operation is ready both return the same `Ok`; the coalesced
delay (firing from the quantized deadline) never fires before the direct
delay (firing from the raw deadline), and fires at most one tick resolution
after it. -/
theorem C9_backends_agree_up_to_one_tick {α : Type} (value : FutureBeh α)
    (d t t0 : Nat) (v : α) (hv : value t = Poll.Ready v) :
    (Timeout.poll (tokio_timeout d value) t).2 = Poll.Ready (Except.ok v) ∧
    (Timeout.poll (fast_timeout d value) t).2 = Poll.Ready (Except.ok v) ∧
    ToTimeout.timeout (⟨d⟩ : TokioTimeout) t0 t = decide (d + t0 ≤ t) ∧
    ToTimeout.timeout (⟨d⟩ : FastTimeout) t0 t = decide (quantize (d + t0) ≤ t) ∧
    (quantize (d + t0) ≤ t → d + t0 ≤ t) ∧
    (d + t0 ≤ t → quantize (d + t0) ≤ t + tickResolution) := by
  refine ⟨?_, ?_, rfl, rfl, ?_, ?_⟩
  · simp [Timeout.poll, tokio_timeout, Timeout.new_with_delay, hv]
  · simp [Timeout.poll, fast_timeout, Timeout.new_with_delay, hv]
  · intro hq
    unfold quantize tickResolution at hq
    omega
  · intro hq
    unfold quantize tickResolution
    omega

/-- Witness for the amended C9 at a concrete first-poll-ready operation. -/
theorem C9_backends_agree_up_to_one_tick_witness :
    (Timeout.poll (tokio_timeout 5 (fun _ => Poll.Ready 3)) 2).2
      = Poll.Ready (Except.ok 3) ∧
    (Timeout.poll (fast_timeout 5 (fun (_ : Nat) => Poll.Ready 3)) 2).2
      = Poll.Ready (Except.ok 3) ∧
    ToTimeout.timeout (⟨5⟩ : TokioTimeout) 0 2 = decide (5 + 0 ≤ 2) ∧
    ToTimeout.timeout (⟨5⟩ : FastTimeout) 0 2 = decide (quantize (5 + 0) ≤ 2) ∧
    (quantize (5 + 0) ≤ 2 → 5 + 0 ≤ 2) ∧
    (5 + 0 ≤ 2 → quantize (5 + 0) ≤ 2 + tickResolution) :=
  C9_backends_agree_up_to_one_tick (fun _ => Poll.Ready 3) 5 2 0 3 rfl

/-- C10: the constructor stores only the duration (no delay, callback
`F::create(d)` = `TokioTimeout(d)`); the delay is created at the first poll
`t0` at which the operation is not ready, and it is the backend's sleep
relative to that instant — it fires exactly from `t0 + d` on, so the
effective deadline is (first not-ready poll) + duration, not
(construction) + duration. -/
theorem C10_countdown_from_first_pending_poll {α : Type}
    (value : FutureBeh α) (d : Duration) (t0 : Nat)
    (h : value t0 = Poll.Pending) :
    (tokio_timeout d value).delay = none ∧
    (tokio_timeout d value).callback = ⟨d⟩ ∧
    ((Timeout.poll (tokio_timeout d value) t0).1).delay
      = some (ToTimeout.timeout (ToTimeout.create d : TokioTimeout) t0) ∧
    ToTimeout.timeout (ToTimeout.create d : TokioTimeout) t0
      = fun t => decide (d + t0 ≤ t) := by
  refine ⟨rfl, rfl, ?_, rfl⟩
  cases hf : ToTimeout.timeout (ToTimeout.create d : TokioTimeout) t0 t0 <;>
    simp [Timeout.poll, tokio_timeout, Timeout.new_with_delay, h, hf]

/-- Witness for C10: a never-ready operation first polled at instant 3 with
duration 5. -/
theorem C10_countdown_from_first_pending_poll_witness :
    (tokio_timeout 5 (fun _ => (Poll.Pending : Poll Nat))).delay = none ∧
    (tokio_timeout 5 (fun _ => (Poll.Pending : Poll Nat))).callback = ⟨5⟩ ∧
    ((Timeout.poll (tokio_timeout 5 (fun _ => (Poll.Pending : Poll Nat))) 3).1).delay
      = some (ToTimeout.timeout (ToTimeout.create 5 : TokioTimeout) 3) ∧
    ToTimeout.timeout (ToTimeout.create 5 : TokioTimeout) 3
      = fun t => decide (5 + 3 ≤ t) :=
  C10_countdown_from_first_pending_poll (fun _ => (Poll.Pending : Poll Nat)) 5 3 rfl

end Pingora
